import Mathlib

/-!
Verification of the MQTT packet decoder (`mqtt_decoder.py`).

The Python source is shallowly embedded below.  Byte buffers are `List Nat`
(each element a byte value `< 256` in practice); Python strings produced by
`bytes.decode` are represented as lists of Unicode code points (`List Nat`);
Python `None` is `Option.none`.  Python dictionaries whose keys are set
conditionally become structures with `Option`-typed fields where `none`
means "key absent".  The wall-clock `timestamp` entry of a decoded packet
is not modelled (no claim concerns it).

The two decoder loops that can fail to terminate in Python (the UNSUBSCRIBE
and SUBSCRIBE topic loops) are modelled with an explicit fuel parameter:
a result of `none` for every fuel value corresponds exactly to an infinite
loop of the Python code.
-/

/-- Worker for `utf8DecodeIgnore`, structurally recursive on a fuel that
is consumed once per decoded or skipped sequence; every step also consumes
at least one byte, so fuel equal to the list length is always enough. -/
def utf8IgnoreAux : Nat → List Nat → List Nat
  | 0, _ => []
  | _ + 1, [] => []
  | fuel + 1, b :: rest =>
    if b < 0x80 then b :: utf8IgnoreAux fuel rest
    else if b < 0xC2 then utf8IgnoreAux fuel rest
    else if b < 0xE0 then
      match rest with
      | [] => []
      | b1 :: rest1 =>
        if 0x80 ≤ b1 ∧ b1 ≤ 0xBF then
          ((b - 0xC0) * 64 + (b1 - 0x80)) :: utf8IgnoreAux fuel rest1
        else utf8IgnoreAux fuel rest
    else if b < 0xF0 then
      match rest with
      | [] => []
      | b1 :: rest1 =>
        let lo := if b = 0xE0 then 0xA0 else 0x80
        let hi := if b = 0xED then 0x9F else 0xBF
        if lo ≤ b1 ∧ b1 ≤ hi then
          match rest1 with
          | [] => []
          | b2 :: rest2 =>
            if 0x80 ≤ b2 ∧ b2 ≤ 0xBF then
              ((b - 0xE0) * 4096 + (b1 - 0x80) * 64 + (b2 - 0x80)) :: utf8IgnoreAux fuel rest2
            else utf8IgnoreAux fuel rest1
        else utf8IgnoreAux fuel rest
    else if b < 0xF5 then
      match rest with
      | [] => []
      | b1 :: rest1 =>
        let lo := if b = 0xF0 then 0x90 else 0x80
        let hi := if b = 0xF4 then 0x8F else 0xBF
        if lo ≤ b1 ∧ b1 ≤ hi then
          match rest1 with
          | [] => []
          | b2 :: rest2 =>
            if 0x80 ≤ b2 ∧ b2 ≤ 0xBF then
              match rest2 with
              | [] => []
              | b3 :: rest3 =>
                if 0x80 ≤ b3 ∧ b3 ≤ 0xBF then
                  ((b - 0xF0) * 262144 + (b1 - 0x80) * 4096 + (b2 - 0x80) * 64 + (b3 - 0x80)) ::
                    utf8IgnoreAux fuel rest3
                else utf8IgnoreAux fuel rest2
            else utf8IgnoreAux fuel rest1
        else utf8IgnoreAux fuel rest
    else utf8IgnoreAux fuel rest

/-- Embedding of CPython `bytes.decode('utf-8', errors='ignore')`
(`mqtt_decoder.py` line 76): well-formed UTF-8 sequences are decoded to
their code point, ill-formed maximal subparts are skipped (overlong
encodings, surrogates and code points above U+10FFFF are rejected, as in
CPython), and a truncated sequence at the end of the input is skipped. -/
def utf8DecodeIgnore (l : List Nat) : List Nat :=
  utf8IgnoreAux l.length l

/-- Worker for `validUtf8`, with the same fuel discipline as
`utf8IgnoreAux`. -/
def validUtf8Aux : Nat → List Nat → Bool
  | 0, _ => true
  | _ + 1, [] => true
  | fuel + 1, b :: rest =>
    if b < 0x80 then validUtf8Aux fuel rest
    else if b < 0xC2 then false
    else if b < 0xE0 then
      match rest with
      | [] => false
      | b1 :: rest1 =>
        if 0x80 ≤ b1 ∧ b1 ≤ 0xBF then validUtf8Aux fuel rest1 else false
    else if b < 0xF0 then
      match rest with
      | [] => false
      | b1 :: rest1 =>
        let lo := if b = 0xE0 then 0xA0 else 0x80
        let hi := if b = 0xED then 0x9F else 0xBF
        if lo ≤ b1 ∧ b1 ≤ hi then
          match rest1 with
          | [] => false
          | b2 :: rest2 =>
            if 0x80 ≤ b2 ∧ b2 ≤ 0xBF then validUtf8Aux fuel rest2 else false
        else false
    else if b < 0xF5 then
      match rest with
      | [] => false
      | b1 :: rest1 =>
        let lo := if b = 0xF0 then 0x90 else 0x80
        let hi := if b = 0xF4 then 0x8F else 0xBF
        if lo ≤ b1 ∧ b1 ≤ hi then
          match rest1 with
          | [] => false
          | b2 :: rest2 =>
            if 0x80 ≤ b2 ∧ b2 ≤ 0xBF then
              match rest2 with
              | [] => false
              | b3 :: rest3 =>
                if 0x80 ≤ b3 ∧ b3 ≤ 0xBF then validUtf8Aux fuel rest3 else false
            else false
        else false
    else false

/-- Embedding of CPython strict `bytes.decode('utf-8')` validity
(`mqtt_decoder.py` line 171): `true` iff the whole byte list is well-formed
UTF-8, so the strict decode raises no `UnicodeDecodeError`. -/
def validUtf8 (l : List Nat) : Bool :=
  validUtf8Aux l.length l

/-- One hexadecimal digit character code, as produced by Python `bytes.hex()`. -/
def hexDigit (n : Nat) : Nat :=
  if n < 10 then 48 + n else 87 + n

/-- Embedding of Python `bytes.hex()` (`mqtt_decoder.py` line 174): two
lowercase hex digit characters per byte. -/
def bytesToHex : List Nat → List Nat
  | [] => []
  | b :: rest => hexDigit (b / 16) :: hexDigit (b % 16) :: bytesToHex rest

/-- Big-endian 16-bit read, embedding `struct.unpack('>H', data[offset:offset+2])[0]`.
Every call site in the source guards `len(data) >= offset + 2`, so the
`getD` default is never reached there. -/
def be16 (data : List Nat) (offset : Nat) : Nat :=
  256 * data.getD offset 0 + data.getD (offset + 1) 0

/-- The loop body of `MQTTDecoder.decode_remaining_length`
(`mqtt_decoder.py` lines 55-65), re-indexed over the byte list that starts
at the decode offset.  The returned `Nat` is the distance from the entry
offset to the Python function's returned index: the terminating byte and
the buffer-exhaustion exit both return `idx + 1`, the over-length exit
(`multiplier > 128*128*128`) returns the already incremented `idx`. -/
def remLenLoop : List Nat → Nat → Nat → Option Nat × Nat
  | [], _, value => (some value, 1)
  | b :: rest, mult, value =>
    let value2 := value + (b &&& 0x7F) * mult
    if b &&& 0x80 = 0 then (some value2, 1)
    else if mult * 128 > 128 * 128 * 128 then (none, 1)
    else
      let r := remLenLoop rest (mult * 128) value2
      (r.1, r.2 + 1)

/-- Embedding of `MQTTDecoder.decode_remaining_length(data, offset)`
(`mqtt_decoder.py` lines 49-65).  First component `none` is Python's
`None` value result (malformed); the second component is the returned
index. -/
def decodeRemainingLength (data : List Nat) (offset : Nat) : Option Nat × Nat :=
  let r := remLenLoop (data.drop offset) 1 0
  (r.1, offset + r.2)

/-- The value denoted by a remaining-length byte sequence: base-128 digits,
least significant first, each digit being the low 7 bits of its byte.
This is the spec-side value of an encoding, written with `%` arithmetic
independently of the decoder's bitwise accumulation. -/
def remLenValue : List Nat → Nat
  | [] => 0
  | b :: rest => b % 128 + 128 * remLenValue rest

/-- Embedding of `MQTTDecoder.decode_string(data, offset)`
(`mqtt_decoder.py` lines 67-77).  Returns Python's
`(string_or_None, next_offset)` pair; the decoded string is the UTF-8
decode with `errors='ignore'` of the length-prefixed slice. -/
def decodeString (data : List Nat) (offset : Nat) : Option (List Nat) × Nat :=
  if data.length < offset + 2 then (none, offset)
  else
    let len := be16 data offset
    if data.length < offset + 2 + len then (none, offset)
    else (some (utf8DecodeIgnore ((data.drop (offset + 2)).take len)), offset + 2 + len)

/-- The fixed placeholder stored for `info['password_val']`
(`mqtt_decoder.py` line 127): the code points of `'***hidden***'`. -/
def hiddenMarker : List Nat :=
  [42, 42, 42, 104, 105, 100, 100, 101, 110, 42, 42, 42]

/-- The `info` dictionary built by `MQTTDecoder.decode_connect`.  A field
is `none` when the corresponding key is never set. -/
structure ConnectInfo where
  protocol : Option (Option (List Nat)) := none
  level : Option Nat := none
  clean_session : Option Bool := none
  will : Option Bool := none
  will_qos : Option Nat := none
  will_retain : Option Bool := none
  password : Option Bool := none
  username : Option Bool := none
  keep_alive : Option Nat := none
  client_id : Option (Option (List Nat)) := none
  will_topic : Option (Option (List Nat)) := none
  will_message : Option (Option (List Nat)) := none
  username_val : Option (Option (List Nat)) := none
  password_val : Option (List Nat) := none
  deriving DecidableEq

/-- Embedding of `MQTTDecoder.decode_connect(data, offset)`
(`mqtt_decoder.py` lines 79-129).  The straight-line sequence of
dictionary assignments is denoted by a single record literal; the offset
chain `oW → oU → oP` follows the conditional string decodes exactly as in
the source (the decoded password string itself is discarded by the source,
which stores the fixed `'***hidden***'` marker instead). -/
def decodeConnect (data : List Nat) (offset : Nat) : ConnectInfo :=
  let rp := decodeString data offset
  let o1 := rp.2
  if data.length < o1 + 4 then { protocol := some rp.1 }
  else
    let flags := data.getD (o1 + 1) 0
    let rc := decodeString data (o1 + 4)
    let oW := rc.2
    let rwt := decodeString data oW
    let rwm := decodeString data rwt.2
    let oU := if flags &&& 0x04 != 0 then rwm.2 else oW
    let ru := decodeString data oU
    let oP := if flags &&& 0x80 != 0 then ru.2 else oU
    let _rpw := decodeString data oP
    { protocol := some rp.1
      level := some (data.getD o1 0)
      clean_session := some (flags &&& 0x02 != 0)
      will := some (flags &&& 0x04 != 0)
      will_qos := some ((flags &&& 0x18) >>> 3)
      will_retain := some (flags &&& 0x20 != 0)
      password := some (flags &&& 0x40 != 0)
      username := some (flags &&& 0x80 != 0)
      keep_alive := some (be16 data (o1 + 2))
      client_id := some rc.1
      will_topic := if flags &&& 0x04 != 0 then some rwt.1 else none
      will_message := if flags &&& 0x04 != 0 then some rwm.1 else none
      username_val := if flags &&& 0x80 != 0 then some ru.1 else none
      password_val := if flags &&& 0x40 != 0 then some hiddenMarker else none }

/-- The CONNACK return-code table `CONNACK_CODES` (`mqtt_decoder.py`
lines 35-42), message strings as code point lists. -/
def connackCodes (c : Nat) : Option (List Nat) :=
  if c = 0 then some ("Connection Accepted".data.map Char.toNat)
  else if c = 1 then some ("Unacceptable protocol version".data.map Char.toNat)
  else if c = 2 then some ("Identifier rejected".data.map Char.toNat)
  else if c = 3 then some ("Server unavailable".data.map Char.toNat)
  else if c = 4 then some ("Bad username or password".data.map Char.toNat)
  else if c = 5 then some ("Not authorized".data.map Char.toNat)
  else none

/-- The `info` dictionary built by `MQTTDecoder.decode_connack`. -/
structure ConnackInfo where
  session_present : Option Bool := none
  return_code : Option Nat := none
  return_msg : Option (List Nat) := none
  deriving DecidableEq

/-- Embedding of `MQTTDecoder.decode_connack(data, offset)`
(`mqtt_decoder.py` lines 131-147); the `f"Unknown ({return_code})"`
fallback is rendered with Lean's decimal printing of the code. -/
def decodeConnack (data : List Nat) (offset : Nat) : ConnackInfo :=
  if data.length < offset + 2 then {}
  else
    let rc := data.getD (offset + 1) 0
    { session_present := some (data.getD offset 0 &&& 0x01 != 0)
      return_code := some rc
      return_msg := some ((connackCodes rc).getD
        (("Unknown (".data.map Char.toNat) ++ ((toString rc).data.map Char.toNat) ++ [41])) }

/-- How the PUBLISH payload was represented: decoded UTF-8 text, or the
hex string fallback when strict UTF-8 decoding raises. -/
inductive PayloadKind where
  | text
  | hexText
  deriving DecidableEq

/-- The `info` dictionary built by `MQTTDecoder.decode_publish`. -/
structure PublishInfo where
  dup : Bool
  qos : Nat
  retain : Bool
  topic : Option (List Nat)
  packet_id : Option Nat := none
  payload : List Nat
  payload_type : PayloadKind
  deriving DecidableEq

/-- Embedding of `MQTTDecoder.decode_publish(data, offset, flags)`
(`mqtt_decoder.py` lines 149-177).  The payload is the whole rest of the
buffer; it is stored as decoded text when strict UTF-8 decoding succeeds
and as a hex string otherwise (the inner `try/except`). -/
def decodePublish (data : List Nat) (offset : Nat) (flags : Nat) : PublishInfo :=
  let dup := flags &&& 0x08 != 0
  let qos := (flags &&& 0x06) >>> 1
  let retain := flags &&& 0x01 != 0
  let rt := decodeString data offset
  let o1 := rt.2
  let pidOff : Option Nat × Nat :=
    if qos > 0 then
      if data.length ≥ o1 + 2 then (some (be16 data o1), o1 + 2) else (none, o1)
    else (none, o1)
  let payload := data.drop pidOff.2
  let pl : List Nat × PayloadKind :=
    if validUtf8 payload then (utf8DecodeIgnore payload, .text)
    else (bytesToHex payload, .hexText)
  { dup := dup, qos := qos, retain := retain, topic := rt.1, packet_id := pidOff.1,
    payload := pl.1, payload_type := pl.2 }

/-- The `info` dictionary built by `MQTTDecoder.decode_subscribe`:
the optional packet id and the `{'topic': ..., 'qos': ...}` entries. -/
structure SubscribeInfo where
  packet_id : Option Nat := none
  topics : List (List Nat × Nat) := []
  deriving DecidableEq

/-- The topic-filter loop of `MQTTDecoder.decode_subscribe`
(`mqtt_decoder.py` lines 190-197), with explicit fuel (one unit per
iteration).  The loop breaks when the decoded topic is `None` or empty
(Python truthiness) or when no QoS byte follows, so it always terminates;
`none` only signals insufficient fuel. -/
def subTopicsAux : Nat → List Nat → Nat → List (List Nat × Nat) →
    Option (List (List Nat × Nat))
  | 0, _, _, _ => none
  | fuel + 1, data, offset, acc =>
    if offset < data.length then
      let r := decodeString data offset
      match r.1 with
      | some t =>
        if t ≠ [] ∧ r.2 < data.length then
          subTopicsAux fuel data (r.2 + 1) (acc ++ [(t, data.getD r.2 0)])
        else some acc
      | none => some acc
    else some acc

/-- Embedding of `MQTTDecoder.decode_subscribe(data, offset)`
(`mqtt_decoder.py` lines 179-200). -/
def decodeSubscribe (fuel : Nat) (data : List Nat) (offset : Nat) : Option SubscribeInfo :=
  let hasPid := data.length ≥ offset + 2
  let o2 := if hasPid then offset + 2 else offset
  match subTopicsAux fuel data o2 [] with
  | none => none
  | some ts => some { packet_id := if hasPid then some (be16 data offset) else none, topics := ts }

/-- The topic loop of the UNSUBSCRIBE branch of `decode_packet`
(`mqtt_decoder.py` lines 259-262), with explicit fuel.  When
`decode_string` fails it returns the offset unchanged, so the Python
loop re-runs the same iteration forever; here that state recurs with one
unit of fuel less, hence the result is `none` for every fuel value
exactly when the Python loop does not terminate. -/
def unsubTopicsAux : Nat → List Nat → Nat → List (List Nat) → Option (List (List Nat))
  | 0, _, _, _ => none
  | fuel + 1, data, offset, acc =>
    if offset < data.length then
      let r := decodeString data offset
      match r.1 with
      | some t => unsubTopicsAux fuel data r.2 (if t ≠ [] then acc ++ [t] else acc)
      | none => unsubTopicsAux fuel data r.2 acc
    else some acc

/-- The type-specific part of a decoded packet record. -/
inductive BodyDetails where
  | connect (i : ConnectInfo)
  | connack (i : ConnackInfo)
  | publish (i : PublishInfo)
  | subscr (i : SubscribeInfo)
  deriving DecidableEq

/-- The `result` dictionary of `MQTTDecoder.decode_packet`
(`mqtt_decoder.py` lines 221-227); the packet-type name string is
determined by `type_code`, and the wall-clock timestamp is not modelled. -/
structure MqttResult where
  type_code : Nat
  flags : Nat
  remaining_length : Nat
  packet_id : Option Nat := none
  details : Option BodyDetails := none
  return_codes : Option (List Nat) := none
  topics : Option (List (List Nat)) := none
  deriving DecidableEq

/-- Embedding of `MQTTDecoder.decode_packet(data)` (`mqtt_decoder.py`
lines 202-273) with explicit fuel for the UNSUBSCRIBE topic loop.
Outer `none` means the Python call has not returned within `fuel` loop
iterations (it diverges when this holds for every fuel); `some none` is
Python's `None` return; `some (some r)` is a decoded packet record. -/
def decodePacketFuel (fuel : Nat) (data : List Nat) : Option (Option MqttResult) :=
  if data.length < 2 then some none
  else
    let byte1 := data.getD 0 0
    let ptype := (byte1 >>> 4) &&& 0x0F
    let flags := byte1 &&& 0x0F
    if ptype < 1 ∨ 14 < ptype then some none
    else
      let r := decodeRemainingLength data 1
      match r.1 with
      | none => some none
      | some remLen =>
        let offset := r.2
        let base : MqttResult :=
          { type_code := ptype, flags := flags, remaining_length := remLen }
        if ptype = 1 then
          some (some { base with details := some (.connect (decodeConnect data offset)) })
        else if ptype = 2 then
          some (some { base with details := some (.connack (decodeConnack data offset)) })
        else if ptype = 3 then
          some (some { base with details := some (.publish (decodePublish data offset flags)) })
        else if ptype = 4 ∨ ptype = 5 ∨ ptype = 6 ∨ ptype = 7 then
          some (some (if data.length ≥ offset + 2 then
            { base with packet_id := some (be16 data offset) } else base))
        else if ptype = 8 then
          match decodeSubscribe fuel data offset with
          | none => none
          | some si => some (some { base with details := some (.subscr si) })
        else if ptype = 9 then
          some (some (if data.length ≥ offset + 2 then
            { base with packet_id := some (be16 data offset),
                        return_codes := some (data.drop (offset + 2)) } else base))
        else if ptype = 10 then
          if data.length ≥ offset + 2 then
            match unsubTopicsAux fuel data (offset + 2) [] with
            | none => none
            | some ts => some (some { base with packet_id := some (be16 data offset),
                                                topics := some ts })
          else some (some base)
        else if ptype = 11 then
          some (some (if data.length ≥ offset + 2 then
            { base with packet_id := some (be16 data offset) } else base))
        else some (some base)

/-- `decode_packet` with fuel sufficient for every terminating execution:
both topic loops advance their offset by at least two (respectively three)
bytes per continuing iteration, so `data.length + 2` iterations are never
exhausted unless the Python loop is infinite. -/
def decodePacket (data : List Nat) : Option (Option MqttResult) :=
  decodePacketFuel (data.length + 2) data

/-- The remaining-length re-scan of the capture loop (`mqtt_decoder.py`
lines 419-429), over the bytes after the fixed-header byte: returns the
accumulated remaining-length value and the number of bytes scanned
(terminating byte included; the scan simply stops at end of buffer). -/
def muxScan : List Nat → Nat → Nat × Nat
  | [], _ => (0, 0)
  | b :: rest, mult =>
    let v := (b &&& 0x7F) * mult
    if b &&& 0x80 = 0 then (v, 1)
    else
      let r := muxScan rest (mult * 128)
      (v + r.1, r.2 + 1)

/-- `packet_len` as computed by the capture loop (`mqtt_decoder.py`
lines 416-431): one fixed-header byte, plus the scanned remaining-length
bytes, plus the remaining-length value. -/
def muxPacketLen (data : List Nat) (offset : Nat) : Nat :=
  1 + (muxScan (data.drop (offset + 1)) 1).2 + (muxScan (data.drop (offset + 1)) 1).1

/-- The per-segment MQTT framing loop of `capture_packets`
(`mqtt_decoder.py` lines 399-434), accumulating decoded packets in wire
order.  `none` propagates a `decode_packet` call that did not return
within the given fuel (divergence when `none` for every fuel). -/
def frameMuxAux (fuel : Nat) (data : List Nat) (offset : Nat) (acc : List MqttResult) :
    Option (List MqttResult) :=
  if offset < data.length then
    if data.length < offset + 2 then some acc
    else
      let ptype := (data.getD offset 0 >>> 4) &&& 0x0F
      if ptype < 1 ∨ 14 < ptype then some acc
      else
        match decodePacketFuel fuel (data.drop offset) with
        | none => none
        | some none => some acc
        | some (some pkt) => frameMuxAux fuel data (offset + muxPacketLen data offset) (acc ++ [pkt])
  else some acc
termination_by data.length - offset
decreasing_by
  have h1 : 1 ≤ muxPacketLen data offset := by
    unfold muxPacketLen
    omega
  omega

/-- The FrameMultiplexer of the spec: the framing loop started at offset 0
on one TCP-segment payload. -/
def frameMultiplexer (fuel : Nat) (data : List Nat) : Option (List MqttResult) :=
  frameMuxAux fuel data 0 []

/-! ## Helper lemmas -/

theorem land_127_eq_mod (b : Nat) : b &&& 127 = b % 128 := by
  have h := Nat.and_pow_two_sub_one_eq_mod b 7
  norm_num at h
  exact h

theorem land_128_eq_zero {b : Nat} (h : b < 128) : b &&& 128 = 0 := by
  have h2 := Nat.and_two_pow b 7
  have h3 : b.testBit 7 = false := Nat.testBit_lt_two_pow (by norm_num; omega)
  norm_num [h3] at h2
  exact h2

theorem land_128_ne_zero {b : Nat} (h1 : 128 ≤ b) (h2 : b < 256) : b &&& 128 ≠ 0 := by
  have hp := Nat.and_two_pow b 7
  have h3 : b.testBit 7 = true := by
    rw [Nat.testBit_to_div_mod]
    norm_num
    omega
  norm_num [h3] at hp
  omega

theorem drop_eq_getD_cons {data : List Nat} {offset : Nat} (h : offset < data.length) :
    data.drop offset = data.getD offset 0 :: data.drop (offset + 1) := by
  rw [List.drop_eq_getElem_cons h]
  congr 1
  rw [List.getD_eq_getElem?_getD, List.getElem?_eq_getElem h]
  rfl

theorem remLenLoop_term {b : Nat} {rest : List Nat} {mult value : Nat}
    (hb : b &&& 128 = 0) :
    remLenLoop (b :: rest) mult value = (some (value + (b &&& 127) * mult), 1) := by
  simp only [remLenLoop]
  rw [if_pos hb]

theorem remLenLoop_cons_cont {b : Nat} {rest : List Nat} {mult value : Nat}
    (hb : b &&& 128 ≠ 0) (hg : ¬ mult * 128 > 128 * 128 * 128) :
    remLenLoop (b :: rest) mult value
      = ((remLenLoop rest (mult * 128) (value + (b &&& 127) * mult)).1,
         (remLenLoop rest (mult * 128) (value + (b &&& 127) * mult)).2 + 1) := by
  simp only [remLenLoop]
  rw [if_neg hb, if_neg hg]

theorem remLenLoop_cons_over {b : Nat} {rest : List Nat} {mult value : Nat}
    (hb : b &&& 128 ≠ 0) (hg : mult * 128 > 128 * 128 * 128) :
    remLenLoop (b :: rest) mult value = (none, 1) := by
  simp only [remLenLoop]
  rw [if_neg hb, if_pos hg]

theorem remLenLoop_valid : ∀ (bs suf : List Nat) (mult value : Nat)
    (hne : bs ≠ []), bs.length ≤ 4 →
    mult * 128 ^ (bs.length - 1) ≤ 128 * 128 * 128 →
    (∀ b ∈ bs, b < 256) →
    (∀ b ∈ bs.dropLast, 128 ≤ b) →
    bs.getLast hne < 128 →
    remLenLoop (bs ++ suf) mult value = (some (value + mult * remLenValue bs), bs.length)
  | [], _, _, _, hne, _, _, _, _, _ => absurd rfl hne
  | [b], suf, mult, value, _, _, _, _, _, hlast => by
    simp only [List.getLast_singleton] at hlast
    rw [List.cons_append, List.nil_append,
      remLenLoop_term (land_128_eq_zero hlast)]
    simp only [remLenValue, land_127_eq_mod, mul_zero, add_zero, Prod.mk.injEq,
      Option.some.injEq, List.length_singleton]
    exact ⟨by ring, trivial⟩
  | b :: b' :: rest, suf, mult, value, _, hlen, hmult, hbyte, hcont, hlast => by
    have hb256 : b < 256 := hbyte b (by simp)
    have hbcont : 128 ≤ b := hcont b (by rw [List.dropLast_cons₂]; exact List.mem_cons_self b _)
    have hguard : ¬ mult * 128 > 128 * 128 * 128 := by
      have h1 : (128 : Nat) ≤ 128 ^ ((b :: b' :: rest).length - 1) := by
        have e2 : (b :: b' :: rest).length - 1 = rest.length + 1 := by simp
        rw [e2]
        calc (128 : Nat) = 128 ^ 1 := (pow_one 128).symm
          _ ≤ 128 ^ (rest.length + 1) := Nat.pow_le_pow_right (by norm_num) (by omega)
      have h2 : mult * 128 ≤ mult * 128 ^ ((b :: b' :: rest).length - 1) :=
        Nat.mul_le_mul_left mult h1
      omega
    have hmult2 : mult * 128 * 128 ^ ((b' :: rest).length - 1) ≤ 128 * 128 * 128 := by
      have e2 : (b :: b' :: rest).length - 1 = (b' :: rest).length - 1 + 1 := by simp
      rw [e2, pow_succ] at hmult
      calc mult * 128 * 128 ^ ((b' :: rest).length - 1)
          = mult * (128 ^ ((b' :: rest).length - 1) * 128) := by ring
        _ ≤ 128 * 128 * 128 := hmult
    have hrec := remLenLoop_valid (b' :: rest) suf (mult * 128)
      (value + (b &&& 127) * mult) (by simp) (by simp at hlen ⊢; omega) hmult2
      (fun x hx => hbyte x (List.mem_cons_of_mem b hx))
      (fun x hx => hcont x (by rw [List.dropLast_cons₂]; exact List.mem_cons_of_mem b hx))
      (by rw [List.getLast_cons] at hlast; exact hlast)
    rw [List.cons_append] at hrec
    rw [List.cons_append, remLenLoop_cons_cont (land_128_ne_zero hbcont hb256) hguard,
      List.cons_append, hrec]
    simp only [remLenValue, land_127_eq_mod, Prod.mk.injEq, Option.some.injEq, List.length_cons]
    exact ⟨by ring, trivial⟩

theorem remLenLoop_exhaust : ∀ (bs : List Nat) (mult value : Nat),
    bs.length ≤ 3 →
    mult * 128 ^ bs.length ≤ 128 * 128 * 128 →
    (∀ b ∈ bs, 128 ≤ b ∧ b < 256) →
    remLenLoop bs mult value = (some (value + mult * remLenValue bs), bs.length + 1)
  | [], mult, value, _, _, _ => by
    simp [remLenLoop, remLenValue]
  | b :: rest, mult, value, hlen, hmult, hbytes => by
    have hb := hbytes b (List.mem_cons_self b rest)
    have hguard : ¬ mult * 128 > 128 * 128 * 128 := by
      have h1 : (128 : Nat) ≤ 128 ^ (b :: rest).length := by
        calc (128 : Nat) = 128 ^ 1 := (pow_one 128).symm
          _ ≤ 128 ^ (b :: rest).length := Nat.pow_le_pow_right (by norm_num) (by simp)
      have h2 : mult * 128 ≤ mult * 128 ^ (b :: rest).length := Nat.mul_le_mul_left mult h1
      omega
    have hmult2 : mult * 128 * 128 ^ rest.length ≤ 128 * 128 * 128 := by
      rw [List.length_cons, pow_succ] at hmult
      calc mult * 128 * 128 ^ rest.length = mult * (128 ^ rest.length * 128) := by ring
        _ ≤ 128 * 128 * 128 := hmult
    have hrec := remLenLoop_exhaust rest (mult * 128) (value + (b &&& 127) * mult)
      (by simp at hlen ⊢; omega) hmult2
      (fun x hx => hbytes x (List.mem_cons_of_mem b hx))
    rw [remLenLoop_cons_cont (land_128_ne_zero hb.1 hb.2) hguard, hrec]
    simp only [remLenValue, land_127_eq_mod, Prod.mk.injEq, Option.some.injEq, List.length_cons]
    exact ⟨by ring, trivial⟩

/-! ## Claim theorems -/

/-- C2: for every integer value and every buffer that contains a valid
1-to-4-byte MQTT remaining-length encoding of it starting at offset
`pre.length` (all bytes below 256, every byte except the last with the
top bit set, last byte with the top bit clear), `decode_remaining_length`
returns exactly the encoded value, and the returned next offset is the
index immediately following the terminating byte. -/
theorem remLen_decode_valid_encoding (pre bs suf : List Nat) (hne : bs ≠ [])
    (hlen : bs.length ≤ 4)
    (hbyte : ∀ b ∈ bs, b < 256)
    (hcont : ∀ b ∈ bs.dropLast, 128 ≤ b)
    (hlast : bs.getLast hne < 128) :
    decodeRemainingLength (pre ++ bs ++ suf) pre.length
      = (some (remLenValue bs), pre.length + bs.length) := by
  unfold decodeRemainingLength
  rw [List.append_assoc, List.drop_left]
  rw [remLenLoop_valid bs suf 1 0 hne hlen
    (by
      have : (128 : Nat) ^ (bs.length - 1) ≤ 128 ^ 3 :=
        Nat.pow_le_pow_right (by norm_num) (by omega)
      simpa using this)
    hbyte hcont hlast]
  simp

/-- C2 witness: the two-byte encoding `[0x81, 0x01]` (value 129) embedded
between other bytes decodes to 129 with the next offset right after its
terminating byte. -/
theorem remLen_decode_valid_encoding_witness :
    decodeRemainingLength [0x10, 0x81, 0x01, 0xFF] 1 = (some 129, 3) := by
  have h := remLen_decode_valid_encoding [0x10] [0x81, 0x01] [0xFF]
    (by decide) (by decide) (by decide) (by decide) (by decide)
  simpa using h

/-- C3: whenever at least four consecutive bytes starting at the decode
offset all have the top bit 0x80 set, `decode_remaining_length` returns
the malformed result (value `None`) instead of continuing to accumulate. -/
theorem remLen_five_byte_malformed (data : List Nat) (offset : Nat)
    (h4 : offset + 4 ≤ data.length)
    (hbits : ∀ i < 4, data.getD (offset + i) 0 &&& 0x80 ≠ 0) :
    (decodeRemainingLength data offset).1 = none := by
  have e0 : data.drop offset = data.getD offset 0 :: data.drop (offset + 1) :=
    drop_eq_getD_cons (by omega)
  have e1 : data.drop (offset + 1) = data.getD (offset + 1) 0 :: data.drop (offset + 2) :=
    drop_eq_getD_cons (by omega)
  have e2 : data.drop (offset + 2) = data.getD (offset + 2) 0 :: data.drop (offset + 3) :=
    drop_eq_getD_cons (by omega)
  have e3 : data.drop (offset + 3) = data.getD (offset + 3) 0 :: data.drop (offset + 4) :=
    drop_eq_getD_cons (by omega)
  have hb0 := hbits 0 (by omega)
  have hb1 := hbits 1 (by omega)
  have hb2 := hbits 2 (by omega)
  have hb3 := hbits 3 (by omega)
  simp only [Nat.add_zero] at hb0
  unfold decodeRemainingLength
  rw [e0, e1, e2, e3]
  rw [remLenLoop_cons_cont hb0 (by norm_num)]
  rw [remLenLoop_cons_cont hb1 (by norm_num)]
  rw [remLenLoop_cons_cont hb2 (by norm_num)]
  rw [remLenLoop_cons_over hb3 (by norm_num)]

/-- C3 witness: a five-byte all-continuation sequence is malformed. -/
theorem remLen_five_byte_malformed_witness :
    (decodeRemainingLength [0x80, 0x80, 0x80, 0x80, 0x80] 0).1 = none :=
  remLen_five_byte_malformed [0x80, 0x80, 0x80, 0x80, 0x80] 0 (by decide) (by decide)

/-- C10: when the buffer ends while a remaining-length continuation is
still in progress (every byte from the decode offset to the end has the
top bit set, at least one and at most three such bytes),
`decode_remaining_length` does not report a failure: it returns the
partially accumulated value as a success, with a next offset of
`data.length + 1`, one past the end of the buffer. -/
theorem remLen_truncated_returns_partial (data : List Nat) (offset : Nat)
    (h1 : offset < data.length) (h2 : data.length ≤ offset + 3)
    (hbytes : ∀ b ∈ data.drop offset, 128 ≤ b ∧ b < 256) :
    decodeRemainingLength data offset
      = (some (remLenValue (data.drop offset)), data.length + 1) := by
  unfold decodeRemainingLength
  rw [remLenLoop_exhaust (data.drop offset) 1 0
    (by simp; omega)
    (by
      have : (128 : Nat) ^ (data.drop offset).length ≤ 128 ^ 3 :=
        Nat.pow_le_pow_right (by norm_num) (by simp; omega)
      simpa using this)
    hbytes]
  simp
  omega

/-- C10 witness: a single continuation byte at the end of the buffer
decodes as a success with value 0 and next offset one past the end. -/
theorem remLen_truncated_returns_partial_witness :
    decodeRemainingLength [0x80] 0 = (some 0, 2) := by
  have h := remLen_truncated_returns_partial [0x80] 0 (by decide) (by decide) (by decide)
  simpa using h

/-- C6 counterexample: the claim says invalid UTF-8 sequences are decoded
by substituting the replacement character U+FFFD, so on the buffer
`[0x00, 0x01, 0xFF]` (length 1, payload the invalid byte 0xFF) it predicts
the string `[0xFFFD]`; the code uses `errors='ignore'`, which drops the
invalid byte and yields the empty string instead. -/
theorem decodeString_drops_invalid_byte :
    decodeString [0x00, 0x01, 0xFF] 0 = (some [], 3) ∧
    (some [0xFFFD] : Option (List Nat)) ≠ some [] := by
  constructor
  · decide
  · decide

/-- C6 (amended): `decode_string` reads a 2-byte big-endian length `L`;
it fails as insufficient (returning `None` and the unchanged offset)
whenever fewer than `2 + L` bytes remain from the offset, and otherwise
it succeeds — never failing on bad UTF-8 — returning the next `L` bytes
decoded as UTF-8 with invalid sequences dropped (`errors='ignore'`),
together with next offset `offset + 2 + L`. -/
theorem decodeString_spec (data : List Nat) (offset L : Nat)
    (hL : L = 256 * data.getD offset 0 + data.getD (offset + 1) 0) :
    (data.length < offset + 2 + L → decodeString data offset = (none, offset)) ∧
    (offset + 2 + L ≤ data.length →
      decodeString data offset
        = (some (utf8DecodeIgnore ((data.drop (offset + 2)).take L)), offset + 2 + L)) := by
  subst hL
  unfold decodeString be16
  constructor
  · intro h
    split
    · rfl
    · rw [if_pos h]
  · intro h
    rw [if_neg (by omega), if_neg (by omega)]

/-- C6 witness: on `[0x00, 0x03, 'a', 'b', 'c']` at offset 0 the decode
returns `("abc", 5)`. -/
theorem decodeString_spec_witness :
    decodeString [0x00, 0x03, 97, 98, 99] 0 = (some [97, 98, 99], 5) := by
  have h := (decodeString_spec [0x00, 0x03, 97, 98, 99] 0 3 (by decide)).2 (by decide)
  exact h.trans (by decide)

theorem decodeConnect_password_val_of_flag (data : List Nat) (offset : Nat)
    (h : (decodeConnect data offset).password = some true) :
    (decodeConnect data offset).password_val = some hiddenMarker := by
  simp only [decodeConnect] at h ⊢
  split at h
  · simp at h
  · rename_i hcond
    rw [if_neg hcond]
    simp only [Option.some.injEq] at h
    show (if (data.getD ((decodeString data offset).2 + 1) 0 &&& 64 != 0) = true
      then some hiddenMarker else none) = some hiddenMarker
    rw [if_pos h]

/-- C8: whenever the decoded CONNECT body records the password flag as
set, its `password_val` entry is the fixed placeholder `'***hidden***'`,
independently of the password bytes actually present in the buffer; in
particular any two CONNECT decodes with the password flag set carry
identical password fields, so only presence is ever recorded. -/
theorem connect_password_redacted (d1 : List Nat) (o1 : Nat) (d2 : List Nat) (o2 : Nat)
    (h1 : (decodeConnect d1 o1).password = some true)
    (h2 : (decodeConnect d2 o2).password = some true) :
    (decodeConnect d1 o1).password_val = some hiddenMarker ∧
    (decodeConnect d1 o1).password_val = (decodeConnect d2 o2).password_val := by
  have e1 := decodeConnect_password_val_of_flag d1 o1 h1
  have e2 := decodeConnect_password_val_of_flag d2 o2 h2
  exact ⟨e1, e1.trans e2.symm⟩

/-- C8 witness: two CONNECT bodies that differ in their password bytes
(`0x70` versus `0x71`) both decode with the same redacted password value. -/
theorem connect_password_redacted_witness :
    (decodeConnect [0, 0, 4, 0x40, 0, 0, 0, 0, 0, 1, 0x70] 0).password = some true ∧
    (decodeConnect [0, 0, 4, 0x40, 0, 0, 0, 0, 0, 1, 0x71] 0).password = some true ∧
    ((decodeConnect [0, 0, 4, 0x40, 0, 0, 0, 0, 0, 1, 0x70] 0).password_val = some hiddenMarker ∧
      (decodeConnect [0, 0, 4, 0x40, 0, 0, 0, 0, 0, 1, 0x70] 0).password_val
        = (decodeConnect [0, 0, 4, 0x40, 0, 0, 0, 0, 0, 1, 0x71] 0).password_val) :=
  ⟨by decide, by decide,
    connect_password_redacted _ _ _ _ (by decide) (by decide)⟩

/-- C4 counterexample: a CONNECT packet whose connect-flags byte is `0xCE`
(here at buffer offset 9, after the fixed header, the protocol name
`MQTT` and the level byte) decodes with `will_retain = false` and
`will = true`, refuting the claim's expected `will_retain:true, will:false`
(`0xCE = 0b11001110` has bit 5 clear and bit 2 set). -/
theorem connect_flags_0xCE_counterexample :
    (decodeConnect
        [0x10, 0x0D, 0x00, 0x04, 0x4D, 0x51, 0x54, 0x54, 0x04, 0xCE,
          0x00, 0x3C, 0x00, 0x01, 0x63] 2).will_retain = some false ∧
    (decodeConnect
        [0x10, 0x0D, 0x00, 0x04, 0x4D, 0x51, 0x54, 0x54, 0x04, 0xCE,
          0x00, 0x3C, 0x00, 0x01, 0x63] 2).will = some true := by
  constructor
  · decide
  · decide

/-- C4 (amended): for every CONNECT body whose connect-flags byte is
`0xCE`, the decode reports `username:true, password:true,
will_retain:false, will:true, clean_session:true` (and `will_qos = 1`).
The flags byte sits one past the offset where the protocol-name string
decode ended, provided the four-byte guard of the body decoder passes. -/
theorem connect_flags_0xCE (data : List Nat) (offset : Nat)
    (hlen : ¬ data.length < (decodeString data offset).2 + 4)
    (hflags : data.getD ((decodeString data offset).2 + 1) 0 = 0xCE) :
    (decodeConnect data offset).username = some true ∧
    (decodeConnect data offset).password = some true ∧
    (decodeConnect data offset).will_retain = some false ∧
    (decodeConnect data offset).will = some true ∧
    (decodeConnect data offset).will_qos = some 1 ∧
    (decodeConnect data offset).clean_session = some true := by
  simp only [decodeConnect, if_neg hlen, hflags]
  refine ⟨rfl, rfl, rfl, rfl, rfl, rfl⟩

/-- C4 witness: a buffer whose protocol-string decode ends at offset 2
and whose flags byte (offset 3) is `0xCE`. -/
theorem connect_flags_0xCE_witness :
    (decodeConnect [0, 0, 9, 0xCE, 0, 60] 0).username = some true ∧
    (decodeConnect [0, 0, 9, 0xCE, 0, 60] 0).password = some true ∧
    (decodeConnect [0, 0, 9, 0xCE, 0, 60] 0).will_retain = some false ∧
    (decodeConnect [0, 0, 9, 0xCE, 0, 60] 0).will = some true ∧
    (decodeConnect [0, 0, 9, 0xCE, 0, 60] 0).will_qos = some 1 ∧
    (decodeConnect [0, 0, 9, 0xCE, 0, 60] 0).clean_session = some true :=
  connect_flags_0xCE [0, 0, 9, 0xCE, 0, 60] 0 (by decide) (by decide)

/-- C5 counterexample: on the two-byte buffer `[0x10, 0x00]` (CONNECT
fixed header, remaining length 0) `decode_packet` does not fail: it does
not return `None`. -/
theorem decode_connect_header_only_not_failure :
    decodePacket [0x10, 0x00] ≠ some none := by
  decide

/-- C5 (amended): decoding `[0x10, 0x00]` succeeds and returns a CONNECT
packet whose body holds only the key `protocol` with value `None` (the
protocol-name string decode found fewer than two bytes), rather than
failing as insufficient. -/
theorem decode_connect_header_only_partial_body :
    decodePacket [0x10, 0x00]
      = some (some { type_code := 1, flags := 0, remaining_length := 0,
                     details := some (.connect { protocol := some none }) }) := by
  decide

theorem decodePublish_dup (data : List Nat) (offset flags : Nat) :
    (decodePublish data offset flags).dup = (flags &&& 0x08 != 0) := by
  rfl

theorem decodePublish_qos (data : List Nat) (offset flags : Nat) :
    (decodePublish data offset flags).qos = (flags &&& 0x06) >>> 1 := by
  rfl

theorem decodePublish_retain (data : List Nat) (offset flags : Nat) :
    (decodePublish data offset flags).retain = (flags &&& 0x01 != 0) := by
  rfl

/-- C9: for every PUBLISH decode the flag fields are derived from the
flags nibble as dup = bit 3, qos = bits 1-2, retain = bit 0; and the
concrete PUBLISH packet with flags nibble `0b0110` decodes without
failure to a record with the reserved value qos = 3 passed through
unvalidated. -/
theorem publish_flag_bits :
    (∀ (data : List Nat) (offset flags : Nat), flags < 16 →
      (decodePublish data offset flags).dup = flags.testBit 3 ∧
      (decodePublish data offset flags).qos = flags / 2 % 4 ∧
      (decodePublish data offset flags).retain = flags.testBit 0) ∧
    decodePacket [0x36, 0x05, 0x00, 0x01, 0x61, 0x00, 0x01]
      = some (some { type_code := 3, flags := 6, remaining_length := 5,
                     details := some (.publish { dup := false, qos := 3, retain := false,
                                                 topic := some [97], packet_id := some 1,
                                                 payload := [], payload_type := .text }) }) := by
  constructor
  · intro data offset flags hf
    refine ⟨?_, ?_, ?_⟩
    · rw [decodePublish_dup]
      interval_cases flags <;> decide
    · rw [decodePublish_qos]
      interval_cases flags <;> decide
    · rw [decodePublish_retain]
      interval_cases flags <;> decide
  · decide

/-- C9 witness: the flag-derivation part applied at the flags nibble
`0b0110`. -/
theorem publish_flag_bits_witness :
    (decodePublish [] 0 6).dup = false ∧ (decodePublish [] 0 6).qos = 3 ∧
    (decodePublish [] 0 6).retain = false := by
  have h := publish_flag_bits.1 [] 0 6 (by decide)
  exact ⟨h.1.trans (by decide), h.2.1.trans (by decide), h.2.2.trans (by decide)⟩

theorem unsubTopicsAux_stuck_c1 :
    ∀ fuel acc, unsubTopicsAux fuel [0xA2, 0x03, 0x00, 0x01, 0x41] 4 acc = none := by
  intro fuel
  induction fuel with
  | zero => intro acc; rfl
  | succ n ih =>
    intro acc
    have hds : decodeString [0xA2, 0x03, 0x00, 0x01, 0x41] 4 = (none, 4) := by decide
    simp only [unsubTopicsAux, hds]
    norm_num
    exact ih acc

/-- C1: the claim says `decode_packet` always returns a packet record or
`None`; on the truncated UNSUBSCRIBE packet `[0xA2, 0x03, 0x00, 0x01, 0x41]`
(remaining length 3, packet id, then a single dangling byte) the topic
loop never terminates — `decode_string` fails and leaves the offset
unchanged, and the loop has no break for that case — so the call never
returns for any amount of fuel. -/
theorem decode_truncated_unsubscribe_never_returns :
    ∀ fuel, decodePacketFuel fuel [0xA2, 0x03, 0x00, 0x01, 0x41] = none := by
  intro fuel
  have hrl : decodeRemainingLength [0xA2, 0x03, 0x00, 0x01, 0x41] 1 = (some 3, 2) := by
    decide
  simp only [decodePacketFuel, hrl]
  norm_num
  rw [unsubTopicsAux_stuck_c1 fuel []]
  simp only [show ((162 : Nat) >>> 4 &&& 15) = 10 from by decide]
  norm_num

theorem unsubTopicsAux_stuck_c7 :
    ∀ fuel acc, unsubTopicsAux fuel
      [0xA2, 0x05, 0x00, 0x01, 0x00, 0x01, 0x61, 0xA2, 0x05, 0x00, 0x02, 0x00, 0x01, 0x62]
      7 acc = none := by
  intro fuel
  induction fuel with
  | zero => intro acc; rfl
  | succ n ih =>
    intro acc
    have hds : decodeString
        [0xA2, 0x05, 0x00, 0x01, 0x00, 0x01, 0x61, 0xA2, 0x05, 0x00, 0x02, 0x00, 0x01, 0x62] 7
        = (none, 7) := by decide
    simp only [unsubTopicsAux, hds]
    norm_num
    exact ih acc

theorem unsubTopicsAux_start_c7 :
    ∀ fuel acc, unsubTopicsAux fuel
      [0xA2, 0x05, 0x00, 0x01, 0x00, 0x01, 0x61, 0xA2, 0x05, 0x00, 0x02, 0x00, 0x01, 0x62]
      4 acc = none := by
  intro fuel acc
  cases fuel with
  | zero => rfl
  | succ n =>
    have hds : decodeString
        [0xA2, 0x05, 0x00, 0x01, 0x00, 0x01, 0x61, 0xA2, 0x05, 0x00, 0x02, 0x00, 0x01, 0x62] 4
        = (some [0x61], 7) := by decide
    simp only [unsubTopicsAux, hds]
    norm_num
    exact unsubTopicsAux_stuck_c7 n _

theorem decodePacket_two_unsub_never_returns :
    ∀ fuel, decodePacketFuel fuel
      [0xA2, 0x05, 0x00, 0x01, 0x00, 0x01, 0x61, 0xA2, 0x05, 0x00, 0x02, 0x00, 0x01, 0x62]
      = none := by
  intro fuel
  have hrl : decodeRemainingLength
      [0xA2, 0x05, 0x00, 0x01, 0x00, 0x01, 0x61, 0xA2, 0x05, 0x00, 0x02, 0x00, 0x01, 0x62] 1
      = (some 5, 2) := by decide
  simp only [decodePacketFuel, hrl]
  norm_num
  rw [unsubTopicsAux_start_c7 fuel []]
  simp only [show ((162 : Nat) >>> 4 &&& 15) = 10 from by decide]
  norm_num

/-- C7: the claim says a buffer holding two consecutive valid MQTT packets
always yields exactly two decoded packets; the buffer here is two valid
back-to-back UNSUBSCRIBE packets (`0xA2`, remaining length 5, a packet id
and one one-character topic each), yet the very first `decode_packet` call
reads topic strings past the first packet's remaining length, hits a
failing string decode at offset 7 (the second packet's header read as a
string length) and loops forever, so the framing loop never returns and
yields nothing, for any amount of fuel. -/
theorem frame_mux_two_unsub_never_returns :
    ∀ fuel, frameMultiplexer fuel
      [0xA2, 0x05, 0x00, 0x01, 0x00, 0x01, 0x61, 0xA2, 0x05, 0x00, 0x02, 0x00, 0x01, 0x62]
      = none := by
  intro fuel
  unfold frameMultiplexer
  rw [frameMuxAux]
  norm_num
  rw [decodePacket_two_unsub_never_returns fuel]
  simp only [show ((162 : Nat) >>> 4 &&& 15) = 10 from by decide]
  norm_num
